import Mathlib

/-!
Verification of the matching-service core of the ride-share platform
(src/backend/matching-service/main.go), checked against its natural-language
specification.

The Go service keeps an in-memory `DriverStore` (a map from driver id to
driver record, plus an S2-cell spatial index mapping a cell id to the slice of
driver ids bucketed there), mutated only by `AddDriver` and queried by
`FindNearestDriver`; the HTTP handler `matchHandler` validates a match
request, audit-logs it, queries the store with a fixed 10 km radius and
reports the result.

The external S2 geometry library (`github.com/golang/geo/s2`) is not part of
this repository; the three operations the service calls on it — the level-15
cell of a position, the four edge neighbors of a cell, and the great-circle
distance between two positions (chord angle in radians times the Earth radius
6371.0 km) — are abstracted as the fields of a `GeoModel` parameter.  Every
theorem that can be proved for an arbitrary `GeoModel` is stated that way; the
concrete `gridGeo` instance below (modelled from the specification's own
description of cells) is used only for concrete counterexamples and witnesses.

Floating-point `float64` values are modelled as rationals; the `math.MaxFloat64`
sentinel used by the Go scan is modelled by the exact rational value of that
constant.
-/

/-- Spatial cell identifiers.  The Go code treats `s2.CellID` opaquely: it is
only used as a map key (decidable equality) and as the argument/result of the
edge-neighbor operation, so any countable label type is a faithful model; we
label cells with pairs of integers, which also lets the concrete grid instance
below name cells by their grid coordinates. -/
abbrev Cell := ℤ × ℤ

/-- A latitude/longitude pair in degrees (Go: `s2.LatLng` built by
`s2.LatLngFromDegrees`). -/
structure LatLng where
  lat : ℚ
  lng : ℚ
deriving DecidableEq

/-- Abstraction of the three operations the service invokes on the external S2
geometry library:
* `cellOf p` models `s2.CellIDFromLatLng(p).Parent(15)` — the fixed-resolution
  (level-15, roughly 1 km) cell containing `p`;
* `edgeNeighbors c` models `c.EdgeNeighbors()` — the four edge-adjacent cells;
* `dist p q` models `p.Distance(q).Radians() * 6371.0` — the great-circle
  distance in kilometers. -/
structure GeoModel where
  cellOf : LatLng → Cell
  edgeNeighbors : Cell → List Cell
  dist : LatLng → LatLng → ℚ

/-- The exact value of Go's `math.MaxFloat64` constant, (2^53 − 1) · 2^971,
used by `FindNearestDriver` as the initial minimum.  Written as an explicit
numeral so that it is already in normal form for kernel reduction. -/
def maxFloat64 : ℚ := 179769313486231570814527423731704356798070567525844996598917476803157260780028538760589558632766878171540458953514382464234321326889464182768467546703537516986049910576551282076245490090389328944075868508455133942304583236903222948165808559332123348274797826204144723168738177180919299881250404026184124858368

/-- `maxFloat64` agrees with the closed form (2^53 − 1) · 2^971. -/
theorem maxFloat64_eq : maxFloat64 = (2 ^ 53 - 1) * 2 ^ 971 := by
  unfold maxFloat64; norm_num

/-- Go struct `Driver` (main.go:41–47): id, position, availability flag and
last-update timestamp (`UpdatedAt`, modelled as a natural number of seconds). -/
structure Driver where
  id : String
  lat : ℚ
  lng : ℚ
  available : Bool
  updatedAt : ℕ
deriving DecidableEq

/-- Go struct `DriverStore` (main.go:67–73): the driver map and the S2 spatial
index.  Go maps are modelled as functions into `Option`; a bucket value is the
ordered slice of driver ids, since slice order is observable (it is the
iteration order of the query scan). -/
structure DriverStore where
  drivers : String → Option Driver
  s2Index : Cell → Option (List String)

/-- `NewDriverStore` (main.go:75–80): both maps empty. -/
def NewDriverStore : DriverStore :=
  { drivers := fun _ => none, s2Index := fun _ => none }

/-- `removeFromS2Index` (main.go:104–116): erase the first occurrence of
`driverID` from the bucket of `cellID` (the Go loop breaks after the first
match), then delete the cell key entirely if its bucket is now empty.  If the
cell is absent nothing happens. -/
def removeFromS2Index (ds : DriverStore) (cellID : Cell) (driverID : String) :
    DriverStore :=
  match ds.s2Index cellID with
  | none => ds
  | some ids =>
    let remaining := ids.erase driverID
    if remaining = [] then
      { ds with s2Index := fun c => if c = cellID then none else ds.s2Index c }
    else
      { ds with s2Index := fun c => if c = cellID then some remaining else ds.s2Index c }

/-- `AddDriver` (main.go:83–102): if the driver already exists, remove its id
from the cell computed from its OLD position; store the new record under
`driver.ID`; if the new record is available, append the id to the bucket of the
cell of the NEW position (Go's `append` on a missing key starts from the empty
slice). -/
def AddDriver (G : GeoModel) (ds : DriverStore) (driver : Driver) : DriverStore :=
  let ds1 :=
    match ds.drivers driver.id with
    | some oldDriver => removeFromS2Index ds (G.cellOf ⟨oldDriver.lat, oldDriver.lng⟩) driver.id
    | none => ds
  let ds2 : DriverStore :=
    { ds1 with drivers := fun i => if i = driver.id then some driver else ds1.drivers i }
  if driver.available then
    let cellID := G.cellOf ⟨driver.lat, driver.lng⟩
    { ds2 with
      s2Index := fun c =>
        if c = cellID then some (((ds2.s2Index cellID).getD []) ++ [driver.id])
        else ds2.s2Index c }
  else ds2

/-- The candidate cells of `FindNearestDriver` (main.go:124–132): the rider's
own cell followed by its four edge neighbors, in that order. -/
def candidateCells (G : GeoModel) (rider : LatLng) : List Cell :=
  G.cellOf rider :: G.edgeNeighbors (G.cellOf rider)

/-- The driver ids scanned by `FindNearestDriver` (main.go:138–140): the
concatenation of the candidate cells' buckets, in cell order then bucket
(slice) order; an absent cell contributes nothing. -/
def candidateIDs (G : GeoModel) (ds : DriverStore) (rider : LatLng) : List String :=
  (candidateCells G rider).flatMap fun c => (ds.s2Index c).getD []

/-- The inner scan of `FindNearestDriver` (main.go:138–155): walk the candidate
ids keeping the running best `(nearestDriver, minDistance)`; skip unavailable
drivers; a candidate replaces the best only when its distance is strictly below
the running minimum and at most `maxDistanceKM`.  A bucketed id absent from the
driver map would be a nil-pointer dereference in Go; that branch is
unreachable in every reachable store (see `StoreInv.sound`) and is modelled as
a skip. -/
def scanDrivers (G : GeoModel) (ds : DriverStore) (rider : LatLng)
    (maxDistanceKM : ℚ) :
    List String → Option Driver → ℚ → Option Driver × ℚ
  | [], nearest, minDistance => (nearest, minDistance)
  | driverID :: rest, nearest, minDistance =>
    match ds.drivers driverID with
    | none => scanDrivers G ds rider maxDistanceKM rest nearest minDistance
    | some driver =>
      if driver.available = false then
        scanDrivers G ds rider maxDistanceKM rest nearest minDistance
      else
        let distance := G.dist rider ⟨driver.lat, driver.lng⟩
        if distance < minDistance ∧ distance ≤ maxDistanceKM then
          scanDrivers G ds rider maxDistanceKM rest (some driver) distance
        else
          scanDrivers G ds rider maxDistanceKM rest nearest minDistance

/-- `FindNearestDriver` (main.go:119–162): scan the candidate ids starting from
`(nil, math.MaxFloat64)`; return `none` when no driver was kept (Go returns
`(nil, 0)`), otherwise the kept driver and its distance. -/
def FindNearestDriver (G : GeoModel) (ds : DriverStore) (lat lng maxDistanceKM : ℚ) :
    Option (Driver × ℚ) :=
  let rider : LatLng := ⟨lat, lng⟩
  match scanDrivers G ds rider maxDistanceKM (candidateIDs G ds rider) none maxFloat64 with
  | (none, _) => none
  | (some d, m) => some (d, m)

/-- Go struct `MatchRequest` (main.go:50–55), after JSON decoding. -/
structure MatchRequest where
  riderID : String
  sessionID : String
  lat : ℚ
  lng : ℚ
deriving DecidableEq

/-- Go struct `MatchResponse` (main.go:58–65). -/
structure MatchResponse where
  success : Bool
  driverID : String
  driverLat : ℚ
  driverLng : ℚ
  distanceKM : ℚ
  message : String
deriving DecidableEq

/-- The calls `matchHandler` makes on the audit logger (`AuditSink` in the
specification): `LogMatchRequest` (main.go:28) and `LogMatchResult`
(main.go:32), recorded with their arguments. -/
inductive AuditEvent where
  | matchRequest (riderID sessionID : String) (lat lng : ℚ)
  | matchResult (riderID driverID sessionID : String) (distanceKM : ℚ) (success : Bool)
deriving DecidableEq

/-- The observable outcome of one `matchHandler` call: the HTTP status code,
the JSON response body when one is encoded (`none` for the plain-text
`http.Error` rejections, whose text is in `errorBody`), and the sequence of
audit-sink events emitted during the call. -/
structure HandlerOutput where
  status : ℕ
  response : Option MatchResponse
  errorBody : String
  audit : List AuditEvent
deriving DecidableEq

/-- `matchHandler` (main.go:207–262), from the decoded request on (the method
check and JSON decoding of main.go:208–218 concern the transport layer and no
claim): reject empty rider/session ids with 400, then out-of-range coordinates
with 400, both before any audit logging and without touching the store;
otherwise audit-log the request, query `FindNearestDriver` with the fixed
10 km radius, and build the 200 response plus the result audit event.  The
handler is given the store and returns it so that its (absence of) mutation is
part of the model. -/
def matchHandler (G : GeoModel) (ds : DriverStore) (req : MatchRequest) :
    HandlerOutput × DriverStore :=
  if req.riderID = "" ∨ req.sessionID = "" then
    (⟨400, none, "rider_id and session_id are required", []⟩, ds)
  else if req.lat < -90 ∨ req.lat > 90 ∨ req.lng < -180 ∨ req.lng > 180 then
    (⟨400, none, "Invalid coordinates", []⟩, ds)
  else
    let requested : List AuditEvent := [.matchRequest req.riderID req.sessionID req.lat req.lng]
    match FindNearestDriver G ds req.lat req.lng 10 with
    | none =>
      (⟨200, some ⟨false, "", 0, 0, 0, "No available drivers found nearby"⟩, "",
        requested ++ [.matchResult req.riderID "" req.sessionID 0 false]⟩, ds)
    | some (driver, distance) =>
      (⟨200, some ⟨true, driver.id, driver.lat, driver.lng, distance, "Match found"⟩, "",
        requested ++ [.matchResult req.riderID driver.id req.sessionID distance true]⟩, ds)

/-- Modelled from the spec: the staleness threshold ("freshness window
(staleness threshold, e.g. 30 s)", §3) that the specification requires of
matching eligibility.  The Go service stores `UpdatedAt` but never reads it;
this constant exists only to state the specification's eligibility notion. -/
def stalenessThreshold : ℕ := 30

/-- Modelled from the spec: "Eligible driver: available and not stale (within
freshness window)" (§ GLOSSARY).  `now` is the query time in the same unit as
`Driver.updatedAt`. -/
def EligibleAt (now : ℕ) (d : Driver) : Prop :=
  d.available = true ∧ now ≤ d.updatedAt + stalenessThreshold

instance (now : ℕ) (d : Driver) : Decidable (EligibleAt now d) := by
  unfold EligibleAt; infer_instance

/-- Modelled from the spec: the brute-force cross-check of §8 — "always
returns the globally minimal-distance eligible driver within `r` (verified by
brute-force cross-check against all eligible drivers)".  The predicate holds
of a query result iff it is what a scan over ALL drivers of the registry
(not just the indexed candidate cells) would justify: `none` exactly when no
eligible driver is within the radius, and otherwise an eligible driver of the
registry at its true distance, within the radius, and of globally minimal
distance among eligible drivers within the radius. -/
def GloballyNearestWithin (G : GeoModel) (ds : DriverStore) (now : ℕ)
    (rider : LatLng) (radiusKm : ℚ) : Option (Driver × ℚ) → Prop
  | none =>
    ∀ id d, ds.drivers id = some d → EligibleAt now d →
      ¬ G.dist rider ⟨d.lat, d.lng⟩ ≤ radiusKm
  | some (d, m) =>
    (∃ id, ds.drivers id = some d) ∧ EligibleAt now d ∧
      m = G.dist rider ⟨d.lat, d.lng⟩ ∧ m ≤ radiusKm ∧
      ∀ id d', ds.drivers id = some d' → EligibleAt now d' →
        G.dist rider ⟨d'.lat, d'.lng⟩ ≤ radiusKm →
        m ≤ G.dist rider ⟨d'.lat, d'.lng⟩

/-- Absolute value on ℚ written with an `if` so that it evaluates by kernel
reduction inside `decide`. -/
def qabs (x : ℚ) : ℚ := if x < 0 then -x else x

/-- Modelled from the spec: a concrete stand-in for the external S2 geometry,
following §3 ("Cell: a fixed-resolution spatial bucket identifier derived
deterministically from a position (target cell size ≈ 1 km)") and §4.2.  Cells
are the unit squares of a planar grid (cell = floor of each coordinate), the
edge neighbors are the four grid neighbors, and the distance is the taxicab
distance in the same unit.  What matters for the concrete examples is the
relation the real deployment also has: the cell diameter (1 unit here, ≈ 1 km
for level-15 S2 cells) is small compared to the handler's 10 km search radius,
so positions within the radius can lie many cells apart. -/
def gridGeo : GeoModel where
  cellOf p := (p.lat.floor, p.lng.floor)
  edgeNeighbors c := [(c.1 - 1, c.2), (c.1 + 1, c.2), (c.1, c.2 - 1), (c.1, c.2 + 1)]
  dist p q := qabs (p.lat - q.lat) + qabs (p.lng - q.lng)

section ScanLemmas

variable (G : GeoModel) (ds : DriverStore) (rider : LatLng) (r : ℚ)

/-- The running minimum of the scan never increases. -/
theorem scanDrivers_snd_le (l : List String) :
    ∀ (b : Option Driver) (m : ℚ), (scanDrivers G ds rider r l b m).2 ≤ m := by
  induction l with
  | nil => intro b m; simp [scanDrivers]
  | cons id rest ih =>
    intro b m
    rw [scanDrivers]
    cases hD : ds.drivers id with
    | none => exact ih b m
    | some driver =>
      by_cases hA : driver.available = false
      · simp only [hA, if_true]; exact ih b m
      · simp only [hA, if_false]
        by_cases hC : G.dist rider ⟨driver.lat, driver.lng⟩ < m ∧
            G.dist rider ⟨driver.lat, driver.lng⟩ ≤ r
        · simp only [hC, if_true]
          exact le_trans (ih _ _) (le_of_lt hC.1)
        · simp only [hC, if_false]; exact ih b m

/-- Once the scan holds a driver it never drops back to `nil`. -/
theorem scanDrivers_some_stays (l : List String) :
    ∀ (d : Driver) (m : ℚ),
      ∃ d' m', scanDrivers G ds rider r l (some d) m = (some d', m') := by
  induction l with
  | nil => intro d m; exact ⟨d, m, rfl⟩
  | cons id rest ih =>
    intro d m
    rw [scanDrivers]
    cases hD : ds.drivers id with
    | none => exact ih d m
    | some driver =>
      by_cases hA : driver.available = false
      · simp only [hA, if_true]; exact ih d m
      · simp only [hA, if_false]
        by_cases hC : G.dist rider ⟨driver.lat, driver.lng⟩ < m ∧
            G.dist rider ⟨driver.lat, driver.lng⟩ ≤ r
        · simp only [hC, if_true]; exact ih driver _
        · simp only [hC, if_false]; exact ih d m

/-- What it means for the scan to end with a driver: either the accumulator is
returned untouched, or the final driver is an available driver resolved from an
id of the scanned list, kept at its true distance, which is within the radius
and strictly below the initial minimum. -/
theorem scanDrivers_some_spec (l : List String) :
    ∀ (b : Option Driver) (m : ℚ) (d' : Driver) (m' : ℚ),
      scanDrivers G ds rider r l b m = (some d', m') →
      (b = some d' ∧ m' = m) ∨
        ((∃ id ∈ l, ds.drivers id = some d') ∧ d'.available = true ∧
          m' = G.dist rider ⟨d'.lat, d'.lng⟩ ∧ m' ≤ r ∧ m' < m) := by
  induction l with
  | nil =>
    intro b m d' m' h
    rw [scanDrivers] at h
    injection h with h1 h2
    exact Or.inl ⟨h1, h2.symm⟩
  | cons id rest ih =>
    intro b m d' m' h
    rw [scanDrivers] at h
    cases hD : ds.drivers id with
    | none =>
      rw [hD] at h
      rcases ih b m d' m' h with h1 | ⟨⟨id2, hmem, hres⟩, h3⟩
      · exact Or.inl h1
      · exact Or.inr ⟨⟨id2, List.mem_cons_of_mem _ hmem, hres⟩, h3⟩
    | some driver =>
      rw [hD] at h
      dsimp only at h
      by_cases hA : driver.available = false
      · rw [if_pos hA] at h
        rcases ih b m d' m' h with h1 | ⟨⟨id2, hmem, hres⟩, h3⟩
        · exact Or.inl h1
        · exact Or.inr ⟨⟨id2, List.mem_cons_of_mem _ hmem, hres⟩, h3⟩
      · rw [if_neg hA] at h
        by_cases hC : G.dist rider ⟨driver.lat, driver.lng⟩ < m ∧
            G.dist rider ⟨driver.lat, driver.lng⟩ ≤ r
        · rw [if_pos hC] at h
          rcases ih _ _ d' m' h with ⟨hb, hm⟩ | ⟨⟨id2, hmem, hres⟩, hav, hdist, hr, hlt⟩
          · -- the head driver itself was kept to the end
            injection hb with hb
            subst hb
            simp only [Bool.not_eq_false] at hA
            refine Or.inr ⟨⟨id, List.mem_cons_self id rest, hD⟩, hA, hm, ?_, ?_⟩
            · rw [hm]; exact hC.2
            · rw [hm]; exact hC.1
          · exact Or.inr ⟨⟨id2, List.mem_cons_of_mem _ hmem, hres⟩, hav, hdist, hr,
              lt_trans hlt hC.1⟩
        · rw [if_neg hC] at h
          rcases ih b m d' m' h with h1 | ⟨⟨id2, hmem, hres⟩, h3⟩
          · exact Or.inl h1
          · exact Or.inr ⟨⟨id2, List.mem_cons_of_mem _ hmem, hres⟩, h3⟩

/-- The final running minimum is at most the distance of every available
driver resolved from the scanned list whose distance is within the radius. -/
theorem scanDrivers_min_le (l : List String) :
    ∀ (b : Option Driver) (m : ℚ) (id : String) (d' : Driver),
      id ∈ l → ds.drivers id = some d' → d'.available = true →
      G.dist rider ⟨d'.lat, d'.lng⟩ ≤ r →
      (scanDrivers G ds rider r l b m).2 ≤ G.dist rider ⟨d'.lat, d'.lng⟩ := by
  induction l with
  | nil => intro b m id d' hmem; exact absurd hmem (List.not_mem_nil id)
  | cons id0 rest ih =>
    intro b m id d' hmem hres hav hr
    rw [scanDrivers]
    rcases List.mem_cons.mp hmem with heq | htail
    · -- the driver sits at the head of the list
      subst heq
      rw [hres]
      simp only [hav, if_neg]
      by_cases hC : G.dist rider ⟨d'.lat, d'.lng⟩ < m ∧ G.dist rider ⟨d'.lat, d'.lng⟩ ≤ r
      · rw [if_pos hC]
        exact scanDrivers_snd_le G ds rider r rest _ _
      · rw [if_neg hC]
        have hm : m ≤ G.dist rider ⟨d'.lat, d'.lng⟩ := by
          by_contra hlt
          exact hC ⟨lt_of_not_le hlt, hr⟩
        exact le_trans (scanDrivers_snd_le G ds rider r rest b m) hm
    · cases hD : ds.drivers id0 with
      | none => exact ih b m id d' htail hres hav hr
      | some driver =>
        by_cases hA : driver.available = false
        · simp only [hA, if_true]; exact ih b m id d' htail hres hav hr
        · simp only [hA, if_false]
          by_cases hC : G.dist rider ⟨driver.lat, driver.lng⟩ < m ∧
              G.dist rider ⟨driver.lat, driver.lng⟩ ≤ r
          · simp only [hC, if_true]; exact ih _ _ id d' htail hres hav hr
          · simp only [hC, if_false]; exact ih b m id d' htail hres hav hr

/-- If the scan starting from `nil` ends with `nil`, the minimum is untouched
and no available driver of the list offered a distance both below the running
minimum and within the radius. -/
theorem scanDrivers_none_spec (l : List String) :
    ∀ (m : ℚ) (m' : ℚ),
      scanDrivers G ds rider r l none m = (none, m') →
      m' = m ∧
        ∀ id ∈ l, ∀ d', ds.drivers id = some d' → d'.available = true →
          ¬(G.dist rider ⟨d'.lat, d'.lng⟩ < m ∧ G.dist rider ⟨d'.lat, d'.lng⟩ ≤ r) := by
  induction l with
  | nil =>
    intro m m' h
    rw [scanDrivers] at h
    injection h with h1 h2
    refine ⟨h2.symm, ?_⟩
    intro id hmem
    exact absurd hmem (List.not_mem_nil id)
  | cons id0 rest ih =>
    intro m m' h
    rw [scanDrivers] at h
    cases hD : ds.drivers id0 with
    | none =>
      rw [hD] at h
      rcases ih m m' h with ⟨hm, hrest⟩
      refine ⟨hm, ?_⟩
      intro id hmem d' hres hav
      rcases List.mem_cons.mp hmem with heq | htail
      · subst heq; rw [hres] at hD; exact absurd hD (by simp)
      · exact hrest id htail d' hres hav
    | some driver =>
      rw [hD] at h
      dsimp only at h
      by_cases hA : driver.available = false
      · rw [if_pos hA] at h
        rcases ih m m' h with ⟨hm, hrest⟩
        refine ⟨hm, ?_⟩
        intro id hmem d' hres hav
        rcases List.mem_cons.mp hmem with heq | htail
        · subst heq
          rw [hres] at hD
          cases hD
          rw [hav] at hA
          exact absurd hA (by simp)
        · exact hrest id htail d' hres hav
      · rw [if_neg hA] at h
        by_cases hC : G.dist rider ⟨driver.lat, driver.lng⟩ < m ∧
            G.dist rider ⟨driver.lat, driver.lng⟩ ≤ r
        · rw [if_pos hC] at h
          rcases scanDrivers_some_stays G ds rider r rest driver _ with ⟨d2, m2, h2⟩
          rw [h2] at h
          exact absurd (congrArg Prod.fst h) (by simp)
        · rw [if_neg hC] at h
          rcases ih m m' h with ⟨hm, hrest⟩
          refine ⟨hm, ?_⟩
          intro id hmem d' hres hav
          rcases List.mem_cons.mp hmem with heq | htail
          · subst heq
            rw [hres] at hD
            cases hD
            exact hC
          · exact hrest id htail d' hres hav

end ScanLemmas

section FindLemmas

variable (G : GeoModel) (ds : DriverStore)

/-- A returned driver was resolved from an id bucketed in a candidate cell, is
available, and its reported distance is its true distance, within the radius
and below the `math.MaxFloat64` sentinel. -/
theorem findNearestDriver_some_spec (lat lng r : ℚ) (d : Driver) (m : ℚ)
    (h : FindNearestDriver G ds lat lng r = some (d, m)) :
    (∃ id ∈ candidateIDs G ds ⟨lat, lng⟩, ds.drivers id = some d) ∧
      d.available = true ∧ m = G.dist ⟨lat, lng⟩ ⟨d.lat, d.lng⟩ ∧ m ≤ r ∧
      m < maxFloat64 := by
  unfold FindNearestDriver at h
  dsimp only at h
  rcases hscan : scanDrivers G ds ⟨lat, lng⟩ r (candidateIDs G ds ⟨lat, lng⟩) none maxFloat64
    with ⟨b, m0⟩
  rw [hscan] at h
  cases b with
  | none => exact absurd h (by simp)
  | some d0 =>
    dsimp only at h
    injection h with h
    injection h with h1 h2
    rw [← h1, ← h2]
    rcases scanDrivers_some_spec G ds ⟨lat, lng⟩ r (candidateIDs G ds ⟨lat, lng⟩)
        none maxFloat64 d0 m0 hscan with ⟨hb, _⟩ | ⟨hmem, hav, hdist, hr, hlt⟩
    · exact absurd hb (by simp)
    · exact ⟨hmem, hav, hdist, hr, hlt⟩

/-- The distance of a returned driver is minimal among the available drivers
bucketed in the candidate cells whose distance is within the radius. -/
theorem findNearestDriver_min_le (lat lng r : ℚ) (d : Driver) (m : ℚ)
    (h : FindNearestDriver G ds lat lng r = some (d, m))
    (id : String) (d' : Driver)
    (hmem : id ∈ candidateIDs G ds ⟨lat, lng⟩)
    (hres : ds.drivers id = some d') (hav : d'.available = true)
    (hr : G.dist ⟨lat, lng⟩ ⟨d'.lat, d'.lng⟩ ≤ r) :
    m ≤ G.dist ⟨lat, lng⟩ ⟨d'.lat, d'.lng⟩ := by
  unfold FindNearestDriver at h
  dsimp only at h
  rcases hscan : scanDrivers G ds ⟨lat, lng⟩ r (candidateIDs G ds ⟨lat, lng⟩) none maxFloat64
    with ⟨b, m0⟩
  rw [hscan] at h
  cases b with
  | none => exact absurd h (by simp)
  | some d0 =>
    dsimp only at h
    injection h with h
    injection h with h1 h2
    rw [← h2]
    have := scanDrivers_min_le G ds ⟨lat, lng⟩ r (candidateIDs G ds ⟨lat, lng⟩)
      none maxFloat64 id d' hmem hres hav hr
    rw [hscan] at this
    exact this

/-- When the query comes back empty, no available driver bucketed in a
candidate cell offers a distance within the radius and below the
`math.MaxFloat64` sentinel. -/
theorem findNearestDriver_none_spec (lat lng r : ℚ)
    (h : FindNearestDriver G ds lat lng r = none)
    (id : String) (d' : Driver)
    (hmem : id ∈ candidateIDs G ds ⟨lat, lng⟩)
    (hres : ds.drivers id = some d') (hav : d'.available = true) :
    ¬(G.dist ⟨lat, lng⟩ ⟨d'.lat, d'.lng⟩ < maxFloat64 ∧
      G.dist ⟨lat, lng⟩ ⟨d'.lat, d'.lng⟩ ≤ r) := by
  unfold FindNearestDriver at h
  dsimp only at h
  rcases hscan : scanDrivers G ds ⟨lat, lng⟩ r (candidateIDs G ds ⟨lat, lng⟩) none maxFloat64
    with ⟨b, m0⟩
  rw [hscan] at h
  cases b with
  | some d0 => exact absurd h (by simp)
  | none =>
    rcases scanDrivers_none_spec G ds ⟨lat, lng⟩ r (candidateIDs G ds ⟨lat, lng⟩)
        maxFloat64 m0 hscan with ⟨_, hnone⟩
    exact hnone id hmem d' hres hav

end FindLemmas

section HandlerLemmas

variable (G : GeoModel) (ds : DriverStore) (req : MatchRequest)

/-- `matchHandler` never mutates the driver store, on any path. -/
theorem matchHandler_store_eq : (matchHandler G ds req).2 = ds := by
  unfold matchHandler
  by_cases h1 : req.riderID = "" ∨ req.sessionID = ""
  · rw [if_pos h1]
  · rw [if_neg h1]
    by_cases h2 : req.lat < -90 ∨ req.lat > 90 ∨ req.lng < -180 ∨ req.lng > 180
    · rw [if_pos h2]
    · rw [if_neg h2]
      dsimp only
      cases FindNearestDriver G ds req.lat req.lng 10 with
      | none => rfl
      | some p => cases p with | mk d m => rfl

/-- On a request failing identifier or coordinate validation, the handler
answers 400 with no JSON body, emits no audit event, and its whole output is
independent of the store. -/
theorem matchHandler_invalid
    (h : (req.riderID = "" ∨ req.sessionID = "") ∨
      (req.lat < -90 ∨ req.lat > 90 ∨ req.lng < -180 ∨ req.lng > 180)) :
    (matchHandler G ds req).1.status = 400 ∧
      (matchHandler G ds req).1.response = none ∧
      (matchHandler G ds req).1.audit = [] ∧
      ∀ ds' : DriverStore, (matchHandler G ds req).1 = (matchHandler G ds' req).1 := by
  unfold matchHandler
  by_cases h1 : req.riderID = "" ∨ req.sessionID = ""
  · rw [if_pos h1]
    refine ⟨rfl, rfl, rfl, ?_⟩
    intro ds'
    rw [if_pos h1]
  · rcases h with h | h2
    · exact absurd h h1
    · rw [if_neg h1, if_pos h2]
      refine ⟨rfl, rfl, rfl, ?_⟩
      intro ds'
      rw [if_neg h1, if_pos h2]

/-- On a valid request whose index query comes back empty, the handler answers
200 with a `success:false` body carrying a human-readable message, and audit
logs the request followed by a failed match result. -/
theorem matchHandler_noMatch
    (h1 : ¬(req.riderID = "" ∨ req.sessionID = ""))
    (h2 : ¬(req.lat < -90 ∨ req.lat > 90 ∨ req.lng < -180 ∨ req.lng > 180))
    (hq : FindNearestDriver G ds req.lat req.lng 10 = none) :
    (matchHandler G ds req).1.status = 200 ∧
      (matchHandler G ds req).1.response =
        some ⟨false, "", 0, 0, 0, "No available drivers found nearby"⟩ ∧
      (matchHandler G ds req).1.audit =
        [.matchRequest req.riderID req.sessionID req.lat req.lng,
         .matchResult req.riderID "" req.sessionID 0 false] := by
  unfold matchHandler
  rw [if_neg h1, if_neg h2]
  dsimp only
  rw [hq]
  exact ⟨rfl, rfl, rfl⟩

/-- On a valid request whose index query returns a driver, the handler answers
200 with a `success:true` body echoing that driver and distance, and audit
logs the request followed by a successful match result. -/
theorem matchHandler_match (d : Driver) (m : ℚ)
    (h1 : ¬(req.riderID = "" ∨ req.sessionID = ""))
    (h2 : ¬(req.lat < -90 ∨ req.lat > 90 ∨ req.lng < -180 ∨ req.lng > 180))
    (hq : FindNearestDriver G ds req.lat req.lng 10 = some (d, m)) :
    (matchHandler G ds req).1.status = 200 ∧
      (matchHandler G ds req).1.response =
        some ⟨true, d.id, d.lat, d.lng, m, "Match found"⟩ ∧
      (matchHandler G ds req).1.audit =
        [.matchRequest req.riderID req.sessionID req.lat req.lng,
         .matchResult req.riderID d.id req.sessionID m true] := by
  unfold matchHandler
  rw [if_neg h1, if_neg h2]
  dsimp only
  rw [hq]
  exact ⟨rfl, rfl, rfl⟩

/-- The handler's observable output is a function of the store and request
alone, and the store is returned unchanged; hence an identical second call
(with no intervening mutation) produces the identical output. -/
theorem matchHandler_repeat :
    (matchHandler G ((matchHandler G ds req).2) req).1 = (matchHandler G ds req).1 := by
  rw [matchHandler_store_eq]

end HandlerLemmas

/-- The structural invariant of every reachable `DriverStore`:
* `idCoherent` — the driver map keys records by their own `id` field;
* `bucketsNodup` — no bucket lists an id twice;
* `bucketsNonempty` — empty buckets are deleted, never stored;
* `sound` — every bucketed id resolves to an available driver whose current
  cell is exactly the bucket's cell (so an id sits in at most one bucket);
* `complete` — every available driver is bucketed in its own cell. -/
structure StoreInv (G : GeoModel) (ds : DriverStore) : Prop where
  idCoherent : ∀ id d, ds.drivers id = some d → d.id = id
  bucketsNodup : ∀ c l, ds.s2Index c = some l → l.Nodup
  bucketsNonempty : ∀ c l, ds.s2Index c = some l → l ≠ []
  sound : ∀ c l id, ds.s2Index c = some l → id ∈ l →
    ∃ d, ds.drivers id = some d ∧ d.available = true ∧ G.cellOf ⟨d.lat, d.lng⟩ = c
  complete : ∀ id d, ds.drivers id = some d → d.available = true →
    id ∈ (ds.s2Index (G.cellOf ⟨d.lat, d.lng⟩)).getD []

/-- The stores reachable by the service: the empty store of `NewDriverStore`,
mutated only by `AddDriver` (the sole mutating operation of main.go — the
match handler never writes). -/
inductive Reachable (G : GeoModel) : DriverStore → Prop
  | init : Reachable G NewDriverStore
  | step (ds : DriverStore) (d : Driver) : Reachable G ds → Reachable G (AddDriver G ds d)

/-- The empty store satisfies the invariant. -/
theorem storeInv_new (G : GeoModel) : StoreInv G NewDriverStore := by
  refine ⟨?_, ?_, ?_, ?_, ?_⟩
  · intro id d h; exact absurd h (by simp [NewDriverStore])
  · intro c l h; exact absurd h (by simp [NewDriverStore])
  · intro c l h; exact absurd h (by simp [NewDriverStore])
  · intro c l id h; exact absurd h (by simp [NewDriverStore])
  · intro id d h; exact absurd h (by simp [NewDriverStore])

/-- Proof-side name for the first stage of `AddDriver` (main.go:88–91): the
removal of an existing driver's id from the cell of its old position. -/
def rmOldCell (G : GeoModel) (ds : DriverStore) (driver : Driver) : DriverStore :=
  match ds.drivers driver.id with
  | some oldDriver => removeFromS2Index ds (G.cellOf ⟨oldDriver.lat, oldDriver.lng⟩) driver.id
  | none => ds

/-- `AddDriver` decomposed through `rmOldCell`, for the proofs below. -/
theorem AddDriver_eq (G : GeoModel) (ds : DriverStore) (driver : Driver) :
    AddDriver G ds driver =
      if driver.available then
        { drivers := fun i => if i = driver.id then some driver else (rmOldCell G ds driver).drivers i,
          s2Index := fun c =>
            if c = G.cellOf ⟨driver.lat, driver.lng⟩ then
              some (((rmOldCell G ds driver).s2Index (G.cellOf ⟨driver.lat, driver.lng⟩)).getD []
                ++ [driver.id])
            else (rmOldCell G ds driver).s2Index c }
      else
        { drivers := fun i => if i = driver.id then some driver else (rmOldCell G ds driver).drivers i,
          s2Index := (rmOldCell G ds driver).s2Index } := by
  unfold AddDriver rmOldCell
  cases ds.drivers driver.id <;> cases driver.available <;> rfl

/-- `removeFromS2Index` never touches the driver map. -/
theorem removeFromS2Index_drivers (ds : DriverStore) (cellID : Cell) (driverID : String) :
    (removeFromS2Index ds cellID driverID).drivers = ds.drivers := by
  unfold removeFromS2Index
  cases ds.s2Index cellID with
  | none => rfl
  | some ids =>
    dsimp only
    by_cases h : ids.erase driverID = []
    · rw [if_pos h]
    · rw [if_neg h]

/-- `removeFromS2Index` never touches other cells' buckets. -/
theorem removeFromS2Index_s2Index_ne (ds : DriverStore) (cellID : Cell) (driverID : String)
    (c : Cell) (hc : c ≠ cellID) :
    (removeFromS2Index ds cellID driverID).s2Index c = ds.s2Index c := by
  unfold removeFromS2Index
  cases ds.s2Index cellID with
  | none => rfl
  | some ids =>
    dsimp only
    by_cases h : ids.erase driverID = []
    · rw [if_pos h]; exact if_neg hc
    · rw [if_neg h]; exact if_neg hc

/-- The bucket of the targeted cell after `removeFromS2Index`. -/
theorem removeFromS2Index_s2Index_eq (ds : DriverStore) (cellID : Cell) (driverID : String) :
    (removeFromS2Index ds cellID driverID).s2Index cellID =
      match ds.s2Index cellID with
      | none => none
      | some ids =>
        if ids.erase driverID = [] then none else some (ids.erase driverID) := by
  unfold removeFromS2Index
  cases hB : ds.s2Index cellID with
  | none => simp [hB]
  | some ids =>
    dsimp only
    by_cases h : ids.erase driverID = []
    · simp [h]
    · simp [h]

/-- Membership in any bucket after `removeFromS2Index` implies membership in
that bucket before. -/
theorem removeFromS2Index_mem_sub (ds : DriverStore) (cellID : Cell) (driverID : String)
    (c : Cell) (id' : String)
    (h : id' ∈ ((removeFromS2Index ds cellID driverID).s2Index c).getD []) :
    id' ∈ (ds.s2Index c).getD [] := by
  by_cases hc : c = cellID
  · subst hc
    rw [removeFromS2Index_s2Index_eq] at h
    cases hb : ds.s2Index c with
    | none => rw [hb] at h; exact absurd h (by simp)
    | some ids =>
      rw [hb] at h
      dsimp only at h
      by_cases he : ids.erase driverID = []
      · rw [if_pos he] at h; exact absurd h (by simp)
      · rw [if_neg he] at h
        simp only [Option.getD_some] at h
        simpa using List.mem_of_mem_erase h
  · rw [removeFromS2Index_s2Index_ne ds cellID driverID c hc] at h
    exact h

/-- An id other than the removed one keeps its bucket membership across
`removeFromS2Index`. -/
theorem removeFromS2Index_mem_of_ne (ds : DriverStore) (cellID : Cell) (driverID : String)
    (c : Cell) (id' : String) (hne : id' ≠ driverID)
    (h : id' ∈ (ds.s2Index c).getD []) :
    id' ∈ ((removeFromS2Index ds cellID driverID).s2Index c).getD [] := by
  by_cases hc : c = cellID
  · subst hc
    rw [removeFromS2Index_s2Index_eq]
    cases hb : ds.s2Index c with
    | none => rw [hb] at h; exact absurd h (by simp)
    | some ids =>
      rw [hb] at h
      simp only [Option.getD_some] at h
      have hmem : id' ∈ ids.erase driverID := (List.mem_erase_of_ne hne).mpr h
      dsimp only
      rw [if_neg (List.ne_nil_of_mem hmem)]
      simpa using hmem
  · rw [removeFromS2Index_s2Index_ne ds cellID driverID c hc]
    exact h

/-- Every bucket after `removeFromS2Index` is a bucket of the original store,
or such a bucket with the id erased (and then nonempty). -/
theorem removeFromS2Index_bucket_cases (ds : DriverStore) (cellID : Cell) (driverID : String)
    (c : Cell) (l : List String)
    (h : (removeFromS2Index ds cellID driverID).s2Index c = some l) :
    ∃ l₀, ds.s2Index c = some l₀ ∧ (l = l₀ ∨ (l = l₀.erase driverID ∧ l ≠ [])) := by
  by_cases hc : c = cellID
  · subst hc
    rw [removeFromS2Index_s2Index_eq] at h
    cases hb : ds.s2Index c with
    | none => rw [hb] at h; exact absurd h (by simp)
    | some ids =>
      rw [hb] at h
      dsimp only at h
      by_cases he : ids.erase driverID = []
      · rw [if_pos he] at h; exact absurd h (by simp)
      · rw [if_neg he] at h
        injection h with h
        exact ⟨ids, rfl, Or.inr ⟨h.symm, h.symm ▸ he⟩⟩
  · rw [removeFromS2Index_s2Index_ne ds cellID driverID c hc] at h
    exact ⟨l, h, Or.inl rfl⟩

/-- `rmOldCell` never touches the driver map. -/
theorem rmOldCell_drivers (G : GeoModel) (ds : DriverStore) (driver : Driver) :
    (rmOldCell G ds driver).drivers = ds.drivers := by
  unfold rmOldCell
  cases ds.drivers driver.id with
  | none => rfl
  | some old => exact removeFromS2Index_drivers ds _ driver.id

/-- Membership in a bucket after `rmOldCell` implies membership before. -/
theorem rmOldCell_mem_sub (G : GeoModel) (ds : DriverStore) (driver : Driver)
    (c : Cell) (id' : String)
    (h : id' ∈ ((rmOldCell G ds driver).s2Index c).getD []) :
    id' ∈ (ds.s2Index c).getD [] := by
  unfold rmOldCell at h
  cases hold : ds.drivers driver.id with
  | none => rw [hold] at h; exact h
  | some old =>
    rw [hold] at h
    exact removeFromS2Index_mem_sub ds _ driver.id c id' h

/-- An id other than the upserted one keeps its bucket membership across
`rmOldCell`. -/
theorem rmOldCell_mem_of_ne (G : GeoModel) (ds : DriverStore) (driver : Driver)
    (c : Cell) (id' : String) (hne : id' ≠ driver.id)
    (h : id' ∈ (ds.s2Index c).getD []) :
    id' ∈ ((rmOldCell G ds driver).s2Index c).getD [] := by
  unfold rmOldCell
  cases hold : ds.drivers driver.id with
  | none => exact h
  | some old => exact removeFromS2Index_mem_of_ne ds _ driver.id c id' hne h

/-- Every bucket after `rmOldCell` is a bucket of the original store or such a
bucket with the driver's id erased. -/
theorem rmOldCell_bucket_cases (G : GeoModel) (ds : DriverStore) (driver : Driver)
    (c : Cell) (l : List String)
    (h : (rmOldCell G ds driver).s2Index c = some l) :
    ∃ l₀, ds.s2Index c = some l₀ ∧ (l = l₀ ∨ (l = l₀.erase driver.id ∧ l ≠ [])) := by
  unfold rmOldCell at h
  cases hold : ds.drivers driver.id with
  | none => rw [hold] at h; exact ⟨l, h, Or.inl rfl⟩
  | some old =>
    rw [hold] at h
    exact removeFromS2Index_bucket_cases ds _ driver.id c l h

/-- Unfolding membership in an optional bucket. -/
theorem bucket_mem_iff (o : Option (List String)) (id : String) :
    id ∈ o.getD [] ↔ ∃ l, o = some l ∧ id ∈ l := by
  cases o with
  | none => simp
  | some l => simp

/-- After the removal stage of an upsert, the upserted driver's id is in no
bucket of an invariant-satisfying store. -/
theorem rmOldCell_not_mem (G : GeoModel) (ds : DriverStore) (driver : Driver)
    (hInv : StoreInv G ds) (c : Cell) :
    driver.id ∉ ((rmOldCell G ds driver).s2Index c).getD [] := by
  intro hmem
  rcases (bucket_mem_iff _ _).mp hmem with ⟨l, hl, hidl⟩
  unfold rmOldCell at hl
  cases hold : ds.drivers driver.id with
  | none =>
    rw [hold] at hl
    rcases hInv.sound c l driver.id hl hidl with ⟨d, hd, _, _⟩
    rw [hold] at hd
    exact absurd hd (by simp)
  | some old =>
    rw [hold] at hl
    by_cases hc : c = G.cellOf ⟨old.lat, old.lng⟩
    · subst hc
      rw [removeFromS2Index_s2Index_eq] at hl
      cases hb : ds.s2Index (G.cellOf ⟨old.lat, old.lng⟩) with
      | none => rw [hb] at hl; exact absurd hl (by simp)
      | some ids =>
        rw [hb] at hl
        dsimp only at hl
        by_cases he : ids.erase driver.id = []
        · rw [if_pos he] at hl; exact absurd hl (by simp)
        · rw [if_neg he] at hl
          injection hl with hl
          rw [← hl] at hidl
          exact (hInv.bucketsNodup _ ids hb).not_mem_erase hidl
    · rw [removeFromS2Index_s2Index_ne ds _ driver.id c hc] at hl
      rcases hInv.sound c l driver.id hl hidl with ⟨d, hd, hav, hcell⟩
      rw [hold] at hd
      injection hd with hd
      subst hd
      exact hc hcell.symm

/-- Buckets stay duplicate-free across the removal stage. -/
theorem rmOldCell_nodup (G : GeoModel) (ds : DriverStore) (driver : Driver)
    (hInv : StoreInv G ds) (c : Cell) (l : List String)
    (h : (rmOldCell G ds driver).s2Index c = some l) : l.Nodup := by
  rcases rmOldCell_bucket_cases G ds driver c l h with ⟨l₀, hl₀, heq | ⟨heq, _⟩⟩
  · exact heq ▸ hInv.bucketsNodup c l₀ hl₀
  · exact heq ▸ (hInv.bucketsNodup c l₀ hl₀).erase _
/-- Buckets stay nonempty across the removal stage. -/
theorem rmOldCell_nonempty (G : GeoModel) (ds : DriverStore) (driver : Driver)
    (hInv : StoreInv G ds) (c : Cell) (l : List String)
    (h : (rmOldCell G ds driver).s2Index c = some l) : l ≠ [] := by
  rcases rmOldCell_bucket_cases G ds driver c l h with ⟨l₀, hl₀, heq | ⟨_, hne⟩⟩
  · exact heq ▸ hInv.bucketsNonempty c l₀ hl₀
  · exact hne

/-- The (possibly missing) bucket of any cell is duplicate-free after the
removal stage. -/
theorem rmOldCell_getD_nodup (G : GeoModel) (ds : DriverStore) (driver : Driver)
    (hInv : StoreInv G ds) (c : Cell) :
    (((rmOldCell G ds driver).s2Index c).getD []).Nodup := by
  cases hb : (rmOldCell G ds driver).s2Index c with
  | none => simp
  | some l => simpa using rmOldCell_nodup G ds driver hInv c l hb

/-- `AddDriver` preserves the store invariant. -/
theorem addDriver_inv (G : GeoModel) (ds : DriverStore) (driver : Driver)
    (hInv : StoreInv G ds) : StoreInv G (AddDriver G ds driver) := by
  rw [AddDriver_eq]
  by_cases hA : driver.available = true
  · rw [if_pos hA]
    refine ⟨?_, ?_, ?_, ?_, ?_⟩
    · -- idCoherent
      intro id d h
      dsimp only at h
      by_cases hid : id = driver.id
      · rw [if_pos hid] at h
        injection h with h
        rw [← h, hid]
      · rw [if_neg hid] at h
        rw [rmOldCell_drivers] at h
        exact hInv.idCoherent id d h
    · -- bucketsNodup
      intro c l h
      dsimp only at h
      by_cases hc : c = G.cellOf ⟨driver.lat, driver.lng⟩
      · rw [if_pos hc] at h
        injection h with h
        rw [← h, ← List.concat_eq_append]
        exact (rmOldCell_getD_nodup G ds driver hInv _).concat
          (rmOldCell_not_mem G ds driver hInv _)
      · rw [if_neg hc] at h
        exact rmOldCell_nodup G ds driver hInv c l h
    · -- bucketsNonempty
      intro c l h
      dsimp only at h
      by_cases hc : c = G.cellOf ⟨driver.lat, driver.lng⟩
      · rw [if_pos hc] at h
        injection h with h
        rw [← h]
        simp
      · rw [if_neg hc] at h
        exact rmOldCell_nonempty G ds driver hInv c l h
    · -- sound
      intro c l id h hid
      dsimp only at h ⊢
      by_cases hc : c = G.cellOf ⟨driver.lat, driver.lng⟩
      · rw [if_pos hc] at h
        injection h with h
        rw [← h] at hid
        rcases List.mem_append.mp hid with hmem | hmem
        · -- id was already bucketed in the new cell before the append
          have hne : id ≠ driver.id := by
            intro heq
            rw [heq] at hmem
            exact rmOldCell_not_mem G ds driver hInv _ hmem
          rcases (bucket_mem_iff _ _).mp (rmOldCell_mem_sub G ds driver _ id hmem)
            with ⟨l₀, hl₀, hidl₀⟩
          rcases hInv.sound _ l₀ id hl₀ hidl₀ with ⟨d, hd, hav, hcell⟩
          refine ⟨d, ?_, hav, hc ▸ hcell⟩
          rw [if_neg hne, rmOldCell_drivers]
          exact hd
        · -- id is the freshly appended driver id
          have hid' : id = driver.id := by simpa using hmem
          refine ⟨driver, ?_, hA, ?_⟩
          · rw [if_pos hid']
          · rw [hc]
      · rw [if_neg hc] at h
        have hgd : id ∈ ((rmOldCell G ds driver).s2Index c).getD [] := by
          rw [h]; simpa using hid
        have hne : id ≠ driver.id := by
          intro heq
          rw [heq] at hgd
          exact rmOldCell_not_mem G ds driver hInv _ hgd
        rcases (bucket_mem_iff _ _).mp (rmOldCell_mem_sub G ds driver c id hgd)
          with ⟨l₀, hl₀, hidl₀⟩
        rcases hInv.sound c l₀ id hl₀ hidl₀ with ⟨d, hd, hav, hcell⟩
        refine ⟨d, ?_, hav, hcell⟩
        rw [if_neg hne, rmOldCell_drivers]
        exact hd
    · -- complete
      intro id d h hav
      dsimp only at h ⊢
      by_cases hid : id = driver.id
      · rw [if_pos hid] at h
        injection h with h
        rw [← h]
        rw [if_pos rfl]
        simp [hid]
      · rw [if_neg hid, rmOldCell_drivers] at h
        have hbefore := hInv.complete id d h hav
        have hR := rmOldCell_mem_of_ne G ds driver _ id hid hbefore
        by_cases hc : G.cellOf ⟨d.lat, d.lng⟩ = G.cellOf ⟨driver.lat, driver.lng⟩
        · rw [hc, if_pos rfl]
          simp only [Option.getD_some]
          exact List.mem_append_left _ (hc ▸ hR)
        · rw [if_neg hc]
          exact hR
  · -- the upserted record is unavailable: no append stage
    rw [if_neg hA]
    have hA' : driver.available = false := by
      cases h : driver.available with
      | false => rfl
      | true => exact absurd h hA
    refine ⟨?_, ?_, ?_, ?_, ?_⟩
    · intro id d h
      dsimp only at h
      by_cases hid : id = driver.id
      · rw [if_pos hid] at h
        injection h with h
        rw [← h, hid]
      · rw [if_neg hid] at h
        rw [rmOldCell_drivers] at h
        exact hInv.idCoherent id d h
    · intro c l h
      exact rmOldCell_nodup G ds driver hInv c l h
    · intro c l h
      exact rmOldCell_nonempty G ds driver hInv c l h
    · intro c l id h hid
      dsimp only at h ⊢
      have hgd : id ∈ ((rmOldCell G ds driver).s2Index c).getD [] := by
        rw [h]; simpa using hid
      have hne : id ≠ driver.id := by
        intro heq
        rw [heq] at hgd
        exact rmOldCell_not_mem G ds driver hInv _ hgd
      rcases (bucket_mem_iff _ _).mp (rmOldCell_mem_sub G ds driver c id hgd)
        with ⟨l₀, hl₀, hidl₀⟩
      rcases hInv.sound c l₀ id hl₀ hidl₀ with ⟨d, hd, hav, hcell⟩
      refine ⟨d, ?_, hav, hcell⟩
      rw [if_neg hne, rmOldCell_drivers]
      exact hd
    · intro id d h hav
      dsimp only at h ⊢
      by_cases hid : id = driver.id
      · rw [if_pos hid] at h
        injection h with h
        rw [← h] at hav
        rw [hav] at hA'
        exact absurd hA' (by simp)
      · rw [if_neg hid, rmOldCell_drivers] at h
        exact rmOldCell_mem_of_ne G ds driver _ id hid (hInv.complete id d h hav)

/-- Every reachable store satisfies the invariant. -/
theorem reachable_storeInv (G : GeoModel) (ds : DriverStore)
    (h : Reachable G ds) : StoreInv G ds := by
  induction h with
  | init => exact storeInv_new G
  | step ds d _ ih => exact addDriver_inv G ds d ih

/-- Two stores with the same maps are equal. -/
theorem DriverStore.eq_of (a b : DriverStore)
    (h1 : a.drivers = b.drivers) (h2 : a.s2Index = b.s2Index) : a = b := by
  cases a; cases b; cases h1; cases h2; rfl

/-- The driver map after an upsert: the new record under its id, everything
else untouched. -/
theorem AddDriver_drivers (G : GeoModel) (ds : DriverStore) (driver : Driver) :
    (AddDriver G ds driver).drivers =
      fun i => if i = driver.id then some driver else ds.drivers i := by
  rw [AddDriver_eq]
  cases hA : driver.available with
  | true => simp only [hA, if_true]; funext i; rw [rmOldCell_drivers]
  | false => simp only [hA, if_false, Bool.false_eq_true]; funext i; rw [rmOldCell_drivers]

/-- The spatial index after an upsert of an available record. -/
theorem AddDriver_s2Index_avail (G : GeoModel) (ds : DriverStore) (driver : Driver)
    (hA : driver.available = true) :
    (AddDriver G ds driver).s2Index = fun c =>
      if c = G.cellOf ⟨driver.lat, driver.lng⟩ then
        some (((rmOldCell G ds driver).s2Index (G.cellOf ⟨driver.lat, driver.lng⟩)).getD []
          ++ [driver.id])
      else (rmOldCell G ds driver).s2Index c := by
  rw [AddDriver_eq]
  simp only [hA, if_true]

/-- The spatial index after an upsert of an unavailable record. -/
theorem AddDriver_s2Index_unavail (G : GeoModel) (ds : DriverStore) (driver : Driver)
    (hA : driver.available = false) :
    (AddDriver G ds driver).s2Index = (rmOldCell G ds driver).s2Index := by
  rw [AddDriver_eq]
  simp only [hA, if_false, Bool.false_eq_true]

/-- Erasing an id appended at the end of a bucket it did not otherwise occur
in restores the bucket. -/
theorem erase_append_self (B : List String) (a : String) (h : a ∉ B) :
    (B ++ [a]).erase a = B := by
  rw [List.erase_append_right _ h, List.erase_cons_head, List.append_nil]

/-- Removing an id that is in no bucket (of a store without stored empty
buckets) changes nothing. -/
theorem removeFromS2Index_s2Index_of_not_mem (ds : DriverStore) (cellID : Cell)
    (driverID : String)
    (h : driverID ∉ (ds.s2Index cellID).getD [])
    (hne : ∀ l, ds.s2Index cellID = some l → l ≠ []) :
    (removeFromS2Index ds cellID driverID).s2Index = ds.s2Index := by
  funext c
  by_cases hc : c = cellID
  · subst hc
    rw [removeFromS2Index_s2Index_eq]
    cases hb : ds.s2Index c with
    | none => rfl
    | some l =>
      dsimp only
      have hnl : driverID ∉ l := by
        rw [hb] at h
        simpa using h
      rw [List.erase_of_not_mem hnl]
      rw [if_neg (hne l hb)]
  · exact removeFromS2Index_s2Index_ne ds cellID driverID c hc

/-- Upserting the same record twice leaves exactly the state of upserting it
once, on every invariant-satisfying (in particular every reachable) store. -/
theorem addDriver_idem (G : GeoModel) (ds : DriverStore) (driver : Driver)
    (hInv : StoreInv G ds) :
    AddDriver G (AddDriver G ds driver) driver = AddDriver G ds driver := by
  have hInvA := addDriver_inv G ds driver hInv
  have hdr : (AddDriver G ds driver).drivers driver.id = some driver := by
    rw [AddDriver_drivers]; simp
  have hrm : rmOldCell G (AddDriver G ds driver) driver
      = removeFromS2Index (AddDriver G ds driver)
          (G.cellOf ⟨driver.lat, driver.lng⟩) driver.id := by
    unfold rmOldCell
    rw [hdr]
  apply DriverStore.eq_of
  · -- the driver maps agree
    rw [AddDriver_drivers, AddDriver_drivers]
    funext i
    by_cases hi : i = driver.id
    · simp [hi]
    · simp [hi]
  · -- the spatial indexes agree
    cases hA : driver.available with
    | true =>
      rw [AddDriver_s2Index_avail G (AddDriver G ds driver) driver hA, hrm]
      funext c
      have hbase := AddDriver_s2Index_avail G ds driver hA
      have hBmem : driver.id ∉
          ((rmOldCell G ds driver).s2Index (G.cellOf ⟨driver.lat, driver.lng⟩)).getD [] :=
        rmOldCell_not_mem G ds driver hInv _
      have hbucket : (AddDriver G ds driver).s2Index (G.cellOf ⟨driver.lat, driver.lng⟩)
          = some (((rmOldCell G ds driver).s2Index (G.cellOf ⟨driver.lat, driver.lng⟩)).getD []
              ++ [driver.id]) := by
        rw [hbase]
        dsimp only
        rw [if_pos rfl]
      by_cases hc : c = G.cellOf ⟨driver.lat, driver.lng⟩
      · subst hc
        rw [if_pos rfl, removeFromS2Index_s2Index_eq, hbucket]
        dsimp only
        rw [erase_append_self _ _ hBmem]
        by_cases hB : ((rmOldCell G ds driver).s2Index (G.cellOf ⟨driver.lat, driver.lng⟩)).getD []
            = []
        · rw [if_pos hB, hB]
          simp
        · rw [if_neg hB]
          simp
      · rw [if_neg hc, removeFromS2Index_s2Index_ne _ _ _ c hc]
    | false =>
      rw [AddDriver_s2Index_unavail G (AddDriver G ds driver) driver hA, hrm]
      have hnone : ∀ c : Cell,
          driver.id ∉ ((AddDriver G ds driver).s2Index c).getD [] := by
        intro c
        rw [AddDriver_s2Index_unavail G ds driver hA]
        exact rmOldCell_not_mem G ds driver hInv c
      exact removeFromS2Index_s2Index_of_not_mem _ _ _
        (hnone _) (fun l hl => hInvA.bucketsNonempty _ l hl)

/-- Under the invariant an id cannot sit in the buckets of two distinct cells. -/
theorem storeInv_at_most_one (G : GeoModel) (ds : DriverStore) (hInv : StoreInv G ds)
    (c₁ c₂ : Cell) (l₁ l₂ : List String) (id : String)
    (h₁ : ds.s2Index c₁ = some l₁) (h₂ : ds.s2Index c₂ = some l₂)
    (hm₁ : id ∈ l₁) (hm₂ : id ∈ l₂) : c₁ = c₂ := by
  rcases hInv.sound c₁ l₁ id h₁ hm₁ with ⟨d₁, hd₁, _, hcell₁⟩
  rcases hInv.sound c₂ l₂ id h₂ hm₂ with ⟨d₂, hd₂, _, hcell₂⟩
  rw [hd₁] at hd₂
  injection hd₂ with hd
  rw [← hcell₁, ← hcell₂, hd]

/-- After upserting an available record, its id is bucketed in the cell of its
new position. -/
theorem addDriver_mem_new (G : GeoModel) (ds : DriverStore) (driver : Driver)
    (hA : driver.available = true) :
    driver.id ∈
      ((AddDriver G ds driver).s2Index (G.cellOf ⟨driver.lat, driver.lng⟩)).getD [] := by
  rw [AddDriver_s2Index_avail G ds driver hA]
  simp

/-- After upserting a record into an invariant-satisfying store, its id is in
no bucket other than (possibly) the cell of its new position. -/
theorem addDriver_not_mem_ne (G : GeoModel) (ds : DriverStore) (driver : Driver)
    (hInv : StoreInv G ds) (c : Cell) (hc : c ≠ G.cellOf ⟨driver.lat, driver.lng⟩) :
    driver.id ∉ ((AddDriver G ds driver).s2Index c).getD [] := by
  cases hA : driver.available with
  | true =>
    rw [AddDriver_s2Index_avail G ds driver hA]
    dsimp only
    rw [if_neg hc]
    exact rmOldCell_not_mem G ds driver hInv c
  | false =>
    rw [AddDriver_s2Index_unavail G ds driver hA]
    exact rmOldCell_not_mem G ds driver hInv c

/-! Concrete fixtures over the grid geometry, used by the counterexamples and
witnesses below.  Rider queries are made from the origin, whose candidate
cells under `gridGeo` are (0,0) and its four grid neighbors. -/

/-- An available, fresh driver five cells away from the origin: well within
the 10 km handler radius, but far outside the query cell and its edge
neighbors (exactly the situation of a driver several level-15 S2 cells away
but within 10 km). -/
def farDriver : Driver :=
  { id := "drv-far", lat := 5, lng := 0, available := true, updatedAt := 40 }

/-- A store holding only `farDriver`. -/
def storeFar : DriverStore := AddDriver gridGeo NewDriverStore farDriver

/-- An available driver at the origin whose last update is far older than the
staleness threshold at query time 1000. -/
def staleDriver : Driver :=
  { id := "drv-stale", lat := 0, lng := 0, available := true, updatedAt := 0 }

/-- A store holding only `staleDriver`. -/
def storeStale : DriverStore := AddDriver gridGeo NewDriverStore staleDriver

/-- First-inserted of two equidistant drivers (both at the origin). -/
def driverB : Driver :=
  { id := "drv-b", lat := 0, lng := 0, available := true, updatedAt := 50 }

/-- Second-inserted of two equidistant drivers; its id is lexicographically
smaller than `driverB`'s. -/
def driverA : Driver :=
  { id := "drv-a", lat := 0, lng := 0, available := true, updatedAt := 50 }

/-- A store with `driverB` inserted before `driverA`: the (0,0) bucket slice
is ["drv-b", "drv-a"], in insertion order. -/
def store4 : DriverStore :=
  AddDriver gridGeo (AddDriver gridGeo NewDriverStore driverB) driverA

/-- A lone available fresh driver at the origin. -/
def soloDriver : Driver :=
  { id := "drv-solo", lat := 0, lng := 0, available := true, updatedAt := 50 }

/-- A store holding only `soloDriver`. -/
def storeSolo : DriverStore := AddDriver gridGeo NewDriverStore soloDriver

/-- An available fresh driver away from the origin, used to exercise upserts. -/
def driverC : Driver :=
  { id := "drv-c", lat := 2, lng := 2, available := true, updatedAt := 50 }

/-- A well-formed match request from the origin. -/
def reqA : MatchRequest :=
  { riderID := "rider-1", sessionID := "sess-1", lat := 0, lng := 0 }

/-- A request with an empty rider id (fails validation). -/
def reqNoRider : MatchRequest :=
  { riderID := "", sessionID := "sess-2", lat := 0, lng := 0 }

set_option maxRecDepth 8000

unseal Rat.add Rat.sub Rat.mul Rat.inv in
/-- C1 (counterexample): `FindNearestDriver` is NOT a brute-force global
nearest search.  `farDriver` is available, fresh, and only 5 km from the query
(well inside the 10 km radius), but its cell is five cells from the query
cell, outside the query cell and its four edge neighbors, so the query returns
`none` — violating the specification's brute-force cross-check predicate
`GloballyNearestWithin`. -/
theorem findNearest_misses_eligible_inRadius :
    FindNearestDriver gridGeo storeFar 0 0 10 = none ∧
    storeFar.drivers "drv-far" = some farDriver ∧
    EligibleAt 50 farDriver ∧
    gridGeo.dist ⟨0, 0⟩ ⟨farDriver.lat, farDriver.lng⟩ ≤ 10 ∧
    ¬ GloballyNearestWithin gridGeo storeFar 50 ⟨0, 0⟩ 10
        (FindNearestDriver gridGeo storeFar 0 0 10) := by
  have hnone : FindNearestDriver gridGeo storeFar 0 0 10 = none := by decide
  refine ⟨hnone, by decide, by decide, by decide, ?_⟩
  rw [hnone]
  intro hglob
  exact hglob "drv-far" farDriver (by decide) (by decide) (by decide)

/-- C1 (amended): what `FindNearestDriver` actually computes.  A returned
driver is an available driver bucketed in the query cell or one of its four
edge neighbors, at its true distance, within the radius, and of minimal
distance among the available in-radius drivers bucketed in those candidate
cells; an empty result means no available driver bucketed in the candidate
cells lies within the radius (below the `math.MaxFloat64` sentinel).  Drivers
within the radius but bucketed elsewhere are never considered. -/
theorem findNearestDriver_candidates_spec (G : GeoModel) (ds : DriverStore)
    (lat lng r : ℚ) :
    (∀ (d : Driver) (m : ℚ), FindNearestDriver G ds lat lng r = some (d, m) →
      d.available = true ∧ m = G.dist ⟨lat, lng⟩ ⟨d.lat, d.lng⟩ ∧ m ≤ r ∧
      (∃ id ∈ candidateIDs G ds ⟨lat, lng⟩, ds.drivers id = some d) ∧
      ∀ (id : String) (d' : Driver), id ∈ candidateIDs G ds ⟨lat, lng⟩ →
        ds.drivers id = some d' → d'.available = true →
        G.dist ⟨lat, lng⟩ ⟨d'.lat, d'.lng⟩ ≤ r →
        m ≤ G.dist ⟨lat, lng⟩ ⟨d'.lat, d'.lng⟩) ∧
    (FindNearestDriver G ds lat lng r = none →
      ∀ (id : String) (d' : Driver), id ∈ candidateIDs G ds ⟨lat, lng⟩ →
        ds.drivers id = some d' → d'.available = true →
        G.dist ⟨lat, lng⟩ ⟨d'.lat, d'.lng⟩ < maxFloat64 →
        ¬ G.dist ⟨lat, lng⟩ ⟨d'.lat, d'.lng⟩ ≤ r) := by
  constructor
  · intro d m h
    rcases findNearestDriver_some_spec G ds lat lng r d m h with ⟨hmem, hav, hdist, hr, _⟩
    exact ⟨hav, hdist, hr, hmem,
      fun id d' h1 h2 h3 h4 => findNearestDriver_min_le G ds lat lng r d m h id d' h1 h2 h3 h4⟩
  · intro h id d' h1 h2 h3 h4 h5
    exact findNearestDriver_none_spec G ds lat lng r h id d' h1 h2 h3 ⟨h4, h5⟩

unseal Rat.add Rat.sub Rat.mul Rat.inv in
/-- Witness for `findNearestDriver_candidates_spec` at a concrete two-driver
store. -/
theorem findNearestDriver_candidates_spec_witness :
    FindNearestDriver gridGeo store4 0 0 10 = some (driverB, 0) ∧
    (0 : ℚ) ≤ gridGeo.dist ⟨0, 0⟩ ⟨driverA.lat, driverA.lng⟩ := by
  have h : FindNearestDriver gridGeo store4 0 0 10 = some (driverB, 0) := by decide
  refine ⟨h, ?_⟩
  exact ((findNearestDriver_candidates_spec gridGeo store4 0 0 10).1 driverB 0 h).2.2.2.2
    "drv-a" driverA (by decide) (by decide) (by decide) (by decide)

unseal Rat.add Rat.sub Rat.mul Rat.inv in
/-- C2 (counterexample): no reservation exists.  Two consecutive `match` calls
with the same request — the sequential special case of two in-flight requests,
with no release in between — both answer success with the SAME driver. -/
theorem match_twice_both_succeed_same_driver :
    ((matchHandler gridGeo storeSolo reqA).1.response.map MatchResponse.success
      = some true) ∧
    ((matchHandler gridGeo ((matchHandler gridGeo storeSolo reqA).2) reqA).1.response.map
        MatchResponse.success = some true) ∧
    ((matchHandler gridGeo storeSolo reqA).1.response.map MatchResponse.driverID
      = some "drv-solo") ∧
    ((matchHandler gridGeo ((matchHandler gridGeo storeSolo reqA).2) reqA).1.response.map
        MatchResponse.driverID = some "drv-solo") := by decide

/-- C2 (amended): the handler performs no reservation whatsoever — it never
writes the store, and a repeated identical `match` call (no intervening
release) returns the identical output; in particular if the first call
succeeds with a driver, the second succeeds with the same driver. -/
theorem matchHandler_no_reservation (G : GeoModel) (ds : DriverStore) (req : MatchRequest) :
    (matchHandler G ds req).2 = ds ∧
    (matchHandler G ((matchHandler G ds req).2) req).1 = (matchHandler G ds req).1 :=
  ⟨matchHandler_store_eq G ds req, matchHandler_repeat G ds req⟩

unseal Rat.add Rat.sub Rat.mul Rat.inv in
/-- C3 (counterexample): no staleness filter exists.  `staleDriver`'s last
update (time 0) is far older than the 30 s threshold at query time 1000, yet
`FindNearestDriver` returns it. -/
theorem findNearest_returns_stale_driver :
    FindNearestDriver gridGeo storeStale 0 0 10 = some (staleDriver, 0) ∧
    staleDriver.available = true ∧
    ¬ EligibleAt 1000 staleDriver := by decide

/-- C3 (amended): the query excludes unavailable drivers (a returned driver is
always available), but applies no staleness check — `Driver.updatedAt` is
never read by the query, as the counterexample shows. -/
theorem findNearestDriver_excludes_unavailable (G : GeoModel) (ds : DriverStore)
    (lat lng r : ℚ) (d : Driver) (m : ℚ)
    (h : FindNearestDriver G ds lat lng r = some (d, m)) : d.available = true :=
  (findNearestDriver_some_spec G ds lat lng r d m h).2.1

unseal Rat.add Rat.sub Rat.mul Rat.inv in
/-- Witness for `findNearestDriver_excludes_unavailable`. -/
theorem findNearestDriver_excludes_unavailable_witness :
    FindNearestDriver gridGeo storeSolo 0 0 10 = some (soloDriver, 0) ∧
    soloDriver.available = true := by
  have h : FindNearestDriver gridGeo storeSolo 0 0 10 = some (soloDriver, 0) := by decide
  exact ⟨h, findNearestDriver_excludes_unavailable gridGeo storeSolo 0 0 10 soloDriver 0 h⟩

unseal Rat.add Rat.sub Rat.mul Rat.inv in
/-- C4 (counterexample): ties are NOT broken by lexicographically smaller
identifier.  `driverA` ("drv-a") and `driverB` ("drv-b") sit at the same
position (hence exactly equidistant, also in floating point) in the same cell,
both within the radius; "drv-a" < "drv-b" lexicographically, yet the query
returns "drv-b", the first-inserted. -/
theorem tie_broken_by_iteration_order_not_id :
    FindNearestDriver gridGeo store4 0 0 10 = some (driverB, 0) ∧
    store4.drivers "drv-a" = some driverA ∧
    store4.drivers "drv-b" = some driverB ∧
    driverA.available = true ∧ driverB.available = true ∧
    gridGeo.dist ⟨0, 0⟩ ⟨driverA.lat, driverA.lng⟩
      = gridGeo.dist ⟨0, 0⟩ ⟨driverB.lat, driverB.lng⟩ ∧
    gridGeo.dist ⟨0, 0⟩ ⟨driverA.lat, driverA.lng⟩ ≤ 10 ∧
    driverA.id < driverB.id ∧
    driverB.id ≠ driverA.id := by
  refine ⟨by decide, by decide, by decide, by decide, by decide, by decide, by decide,
    ?_, by decide⟩
  rw [String.lt_iff_toList_lt]
  decide

/-- C4 (amended): on a tie the scan keeps the incumbent — a candidate whose
distance equals the running minimum never replaces it (the update requires a
strictly smaller distance), so equidistant candidates are resolved by
iteration order (query cell then edge neighbors, insertion order within a
bucket), not by identifier. -/
theorem scanDrivers_keeps_incumbent_on_tie (G : GeoModel) (ds : DriverStore)
    (rider : LatLng) (r : ℚ) (id : String) (rest : List String)
    (b d : Driver) (m : ℚ)
    (hres : ds.drivers id = some d) (hav : d.available = true)
    (hdist : G.dist rider ⟨d.lat, d.lng⟩ = m) :
    scanDrivers G ds rider r (id :: rest) (some b) m
      = scanDrivers G ds rider r rest (some b) m := by
  rw [scanDrivers, hres]
  dsimp only
  have hA : ¬ d.available = false := by rw [hav]; simp
  rw [if_neg hA, hdist, if_neg (fun hC => lt_irrefl m hC.1)]

unseal Rat.add Rat.sub Rat.mul Rat.inv in
/-- Witness for `scanDrivers_keeps_incumbent_on_tie`. -/
theorem scanDrivers_keeps_incumbent_on_tie_witness :
    store4.drivers "drv-a" = some driverA ∧ driverA.available = true ∧
    gridGeo.dist ⟨0, 0⟩ ⟨driverA.lat, driverA.lng⟩ = 0 ∧
    scanDrivers gridGeo store4 ⟨0, 0⟩ 10 ["drv-a"] (some driverB) 0
      = scanDrivers gridGeo store4 ⟨0, 0⟩ 10 [] (some driverB) 0 :=
  ⟨by decide, by decide, by decide,
    scanDrivers_keeps_incumbent_on_tie gridGeo store4 ⟨0, 0⟩ 10 "drv-a" [] driverB driverA 0
      (by decide) (by decide) (by decide)⟩

/-- C5: a driver returned by `FindNearestDriver` is returned together with its
distance from the query position (as computed by the geometry's great-circle
distance), and that distance never exceeds the radius. -/
theorem findNearestDriver_distance_within_radius (G : GeoModel) (ds : DriverStore)
    (lat lng r : ℚ) (d : Driver) (m : ℚ)
    (h : FindNearestDriver G ds lat lng r = some (d, m)) :
    m ≤ r ∧ m = G.dist ⟨lat, lng⟩ ⟨d.lat, d.lng⟩ := by
  rcases findNearestDriver_some_spec G ds lat lng r d m h with ⟨_, _, hdist, hr, _⟩
  exact ⟨hr, hdist⟩

unseal Rat.add Rat.sub Rat.mul Rat.inv in
/-- Witness for `findNearestDriver_distance_within_radius`. -/
theorem findNearestDriver_distance_within_radius_witness :
    FindNearestDriver gridGeo storeSolo 0 0 10 = some (soloDriver, 0) ∧
    (0 : ℚ) ≤ 10 ∧ (0 : ℚ) = gridGeo.dist ⟨0, 0⟩ ⟨soloDriver.lat, soloDriver.lng⟩ := by
  have h : FindNearestDriver gridGeo storeSolo 0 0 10 = some (soloDriver, 0) := by decide
  exact ⟨h, (findNearestDriver_distance_within_radius gridGeo storeSolo 0 0 10 soloDriver 0 h).1,
    (findNearestDriver_distance_within_radius gridGeo storeSolo 0 0 10 soloDriver 0 h).2⟩

/-- C6: a request with an empty rider id, empty session id, or out-of-range
latitude/longitude is answered 400 with no JSON body, emits no audit event,
leaves the store untouched, and its whole output is independent of the store
(the store is never consulted). -/
theorem matchHandler_rejects_invalid_request (G : GeoModel) (ds : DriverStore)
    (req : MatchRequest)
    (h : req.riderID = "" ∨ req.sessionID = "" ∨
      req.lat < -90 ∨ req.lat > 90 ∨ req.lng < -180 ∨ req.lng > 180) :
    (matchHandler G ds req).1.status = 400 ∧
    (matchHandler G ds req).1.response = none ∧
    (matchHandler G ds req).1.audit = [] ∧
    (∀ ds' : DriverStore, (matchHandler G ds req).1 = (matchHandler G ds' req).1) ∧
    (matchHandler G ds req).2 = ds := by
  have h' : (req.riderID = "" ∨ req.sessionID = "") ∨
      (req.lat < -90 ∨ req.lat > 90 ∨ req.lng < -180 ∨ req.lng > 180) := by tauto
  rcases matchHandler_invalid G ds req h' with ⟨h1, h2, h3, h4⟩
  exact ⟨h1, h2, h3, h4, matchHandler_store_eq G ds req⟩

/-- Witness for `matchHandler_rejects_invalid_request`. -/
theorem matchHandler_rejects_invalid_request_witness :
    reqNoRider.riderID = "" ∧
    (matchHandler gridGeo storeSolo reqNoRider).1.status = 400 ∧
    (matchHandler gridGeo storeSolo reqNoRider).1.audit = [] := by
  have h : reqNoRider.riderID = "" := rfl
  have hmain := matchHandler_rejects_invalid_request gridGeo storeSolo reqNoRider (Or.inl h)
  exact ⟨h, hmain.1, hmain.2.2.1⟩

unseal Rat.add Rat.sub Rat.mul Rat.inv in
/-- C7 (counterexample): on a store whose only driver is stale (hence with NO
eligible driver within the radius, in the specification's sense), a valid
request is answered with `success:true` — not the claimed `success:false` —
because the handler never checks staleness. -/
theorem match_succeeds_despite_no_eligible_driver :
    (∀ id d, storeStale.drivers id = some d → ¬ EligibleAt 1000 d) ∧
    reqA.riderID ≠ "" ∧ reqA.sessionID ≠ "" ∧
    ¬(reqA.lat < -90 ∨ reqA.lat > 90 ∨ reqA.lng < -180 ∨ reqA.lng > 180) ∧
    (matchHandler gridGeo storeStale reqA).1.response.map MatchResponse.success
      = some true := by
  refine ⟨?_, by decide, by decide, by decide, by decide⟩
  intro id d h
  unfold storeStale at h
  rw [AddDriver_drivers] at h
  dsimp only at h
  by_cases hid : id = staleDriver.id
  · rw [if_pos hid] at h
    injection h with h
    rw [← h]
    decide
  · rw [if_neg hid] at h
    exact absurd h (by simp [NewDriverStore])

/-- C7 (amended): on a valid request for which the index query itself returns
no driver (in particular, when no available driver in the candidate cells lies
within the radius), the handler answers 200 with a `success:false` body and a
human-readable message, and audit-logs a failed outcome.  The claim's original
"no eligible driver" hypothesis (eligible = available and fresh) is weakened
to the query's own emptiness, since the code has no staleness filter (see the
counterexample). -/
theorem matchHandler_no_match_outcome (G : GeoModel) (ds : DriverStore)
    (req : MatchRequest)
    (h1 : ¬(req.riderID = "" ∨ req.sessionID = ""))
    (h2 : ¬(req.lat < -90 ∨ req.lat > 90 ∨ req.lng < -180 ∨ req.lng > 180))
    (hq : FindNearestDriver G ds req.lat req.lng 10 = none) :
    (matchHandler G ds req).1.status = 200 ∧
    (matchHandler G ds req).1.response =
      some ⟨false, "", 0, 0, 0, "No available drivers found nearby"⟩ ∧
    (∀ resp, (matchHandler G ds req).1.response = some resp →
      resp.success = false ∧ resp.message ≠ "") ∧
    (matchHandler G ds req).1.audit =
      [.matchRequest req.riderID req.sessionID req.lat req.lng,
       .matchResult req.riderID "" req.sessionID 0 false] := by
  rcases matchHandler_noMatch G ds req h1 h2 hq with ⟨ha, hb, hc⟩
  refine ⟨ha, hb, ?_, hc⟩
  intro resp hr
  rw [hb] at hr
  injection hr with hr
  rw [← hr]
  exact ⟨rfl, by decide⟩

unseal Rat.add Rat.sub Rat.mul Rat.inv in
/-- Witness for `matchHandler_no_match_outcome` on the empty store. -/
theorem matchHandler_no_match_outcome_witness :
    FindNearestDriver gridGeo NewDriverStore reqA.lat reqA.lng 10 = none ∧
    (matchHandler gridGeo NewDriverStore reqA).1.status = 200 ∧
    (matchHandler gridGeo NewDriverStore reqA).1.audit =
      [.matchRequest "rider-1" "sess-1" 0 0,
       .matchResult "rider-1" "" "sess-1" 0 false] := by
  have hq : FindNearestDriver gridGeo NewDriverStore reqA.lat reqA.lng 10 = none := by decide
  have hmain := matchHandler_no_match_outcome gridGeo NewDriverStore reqA
    (by decide) (by decide) hq
  exact ⟨hq, hmain.1, hmain.2.2.2⟩

/-- C8: in every reachable store a driver id is bucketed in at most one cell,
and one `AddDriver` call (the single operation) both inserts an available
driver's id into the bucket of its new cell and removes it from every other
cell's bucket — in particular from its old cell when the cell changed. -/
theorem driver_in_at_most_one_cell_and_move_atomic (G : GeoModel) (ds : DriverStore)
    (h : Reachable G ds) :
    (∀ (c₁ c₂ : Cell) (l₁ l₂ : List String) (id : String),
      ds.s2Index c₁ = some l₁ → ds.s2Index c₂ = some l₂ →
      id ∈ l₁ → id ∈ l₂ → c₁ = c₂) ∧
    (∀ driver : Driver, driver.available = true →
      driver.id ∈
        ((AddDriver G ds driver).s2Index (G.cellOf ⟨driver.lat, driver.lng⟩)).getD [] ∧
      ∀ c : Cell, c ≠ G.cellOf ⟨driver.lat, driver.lng⟩ →
        driver.id ∉ ((AddDriver G ds driver).s2Index c).getD []) := by
  have hInv := reachable_storeInv G ds h
  refine ⟨?_, ?_⟩
  · intro c₁ c₂ l₁ l₂ id h₁ h₂ hm₁ hm₂
    exact storeInv_at_most_one G ds hInv c₁ c₂ l₁ l₂ id h₁ h₂ hm₁ hm₂
  · intro driver hA
    exact ⟨addDriver_mem_new G ds driver hA,
      fun c hc => addDriver_not_mem_ne G ds driver hInv c hc⟩

unseal Rat.add Rat.sub Rat.mul Rat.inv in
/-- Witness for `driver_in_at_most_one_cell_and_move_atomic`. -/
theorem driver_in_at_most_one_cell_and_move_atomic_witness :
    Reachable gridGeo store4 ∧
    "drv-c" ∈ ((AddDriver gridGeo store4 driverC).s2Index (2, 2)).getD [] ∧
    "drv-c" ∉ ((AddDriver gridGeo store4 driverC).s2Index (0, 0)).getD [] := by
  have hreach : Reachable gridGeo store4 :=
    .step _ driverA (.step _ driverB .init)
  have hmain := driver_in_at_most_one_cell_and_move_atomic gridGeo store4 hreach
  refine ⟨hreach, ?_, ?_⟩
  · exact (hmain.2 driverC rfl).1
  · exact (hmain.2 driverC rfl).2 (0, 0) (by decide)

/-- C9: `AddDriver` is a total function (it always succeeds and records the
new driver under its id), and upserting the same record twice yields exactly
the store of upserting it once, on every invariant-satisfying (in particular
every reachable) store. -/
theorem addDriver_idempotent_and_total (G : GeoModel) (ds : DriverStore)
    (driver : Driver) (hInv : StoreInv G ds) :
    AddDriver G (AddDriver G ds driver) driver = AddDriver G ds driver ∧
    (AddDriver G ds driver).drivers driver.id = some driver := by
  refine ⟨addDriver_idem G ds driver hInv, ?_⟩
  rw [AddDriver_drivers]
  simp

/-- Witness for `addDriver_idempotent_and_total`. -/
theorem addDriver_idempotent_and_total_witness :
    StoreInv gridGeo store4 ∧
    AddDriver gridGeo (AddDriver gridGeo store4 driverC) driverC
      = AddDriver gridGeo store4 driverC ∧
    (AddDriver gridGeo store4 driverC).drivers "drv-c" = some driverC := by
  have hInv : StoreInv gridGeo store4 :=
    addDriver_inv _ _ _ (addDriver_inv _ _ _ (storeInv_new gridGeo))
  have hmain := addDriver_idempotent_and_total gridGeo store4 driverC hInv
  exact ⟨hInv, hmain.1, hmain.2⟩

/-- C10: handling a match request leaves the driver store exactly as it was,
and a successfully matched driver is (hence) still recorded, still available
and still bucketed in its own cell afterwards. -/
theorem matchHandler_leaves_store_unchanged (G : GeoModel) (ds : DriverStore)
    (req : MatchRequest) (hInv : StoreInv G ds) :
    (matchHandler G ds req).2 = ds ∧
    ∀ resp, (matchHandler G ds req).1.response = some resp → resp.success = true →
      ∃ d, ds.drivers resp.driverID = some d ∧ d.available = true ∧
        resp.driverID ∈ (ds.s2Index (G.cellOf ⟨d.lat, d.lng⟩)).getD [] := by
  refine ⟨matchHandler_store_eq G ds req, ?_⟩
  intro resp hresp hsucc
  by_cases h1 : req.riderID = "" ∨ req.sessionID = ""
  · rcases matchHandler_invalid G ds req (Or.inl h1) with ⟨_, hnone, _, _⟩
    rw [hnone] at hresp
    exact absurd hresp (by simp)
  · by_cases h2 : req.lat < -90 ∨ req.lat > 90 ∨ req.lng < -180 ∨ req.lng > 180
    · rcases matchHandler_invalid G ds req (Or.inr h2) with ⟨_, hnone, _, _⟩
      rw [hnone] at hresp
      exact absurd hresp (by simp)
    · cases hq : FindNearestDriver G ds req.lat req.lng 10 with
      | none =>
        rcases matchHandler_noMatch G ds req h1 h2 hq with ⟨_, hb, _⟩
        rw [hb] at hresp
        injection hresp with hresp
        rw [← hresp] at hsucc
        exact absurd hsucc (by simp)
      | some p =>
        rcases p with ⟨d, m⟩
        rcases matchHandler_match G ds req d m h1 h2 hq with ⟨_, hb, _⟩
        rw [hb] at hresp
        injection hresp with hresp
        subst hresp
        rcases findNearestDriver_some_spec G ds req.lat req.lng 10 d m hq
          with ⟨⟨id0, _, hres0⟩, hav, _, _, _⟩
        have hid : d.id = id0 := hInv.idCoherent id0 d hres0
        have hdrv : ds.drivers d.id = some d := by rw [hid]; exact hres0
        exact ⟨d, hdrv, hav, hInv.complete d.id d hdrv hav⟩

unseal Rat.add Rat.sub Rat.mul Rat.inv in
/-- Witness for `matchHandler_leaves_store_unchanged`. -/
theorem matchHandler_leaves_store_unchanged_witness :
    StoreInv gridGeo storeSolo ∧
    (matchHandler gridGeo storeSolo reqA).2 = storeSolo ∧
    ∃ d, storeSolo.drivers "drv-solo" = some d ∧ d.available = true ∧
      "drv-solo" ∈ (storeSolo.s2Index (gridGeo.cellOf ⟨d.lat, d.lng⟩)).getD [] := by
  have hInv : StoreInv gridGeo storeSolo := addDriver_inv _ _ _ (storeInv_new gridGeo)
  have hmain := matchHandler_leaves_store_unchanged gridGeo storeSolo reqA hInv
  have hresp : (matchHandler gridGeo storeSolo reqA).1.response
      = some ⟨true, "drv-solo", 0, 0, 0, "Match found"⟩ := by decide
  exact ⟨hInv, hmain.1, hmain.2 ⟨true, "drv-solo", 0, 0, 0, "Match found"⟩ hresp rfl⟩
